import Mathlib

/-!
Verification of the polling transaction verifier in `pft_transact_check.py`
(module `pft_transact_check`), a bounded poller that watches an XRP-ledger
wallet for an incoming PFT token transfer matching caller-supplied criteria
(minimum amount, correlation token in the memo).

The Python source is shallowly embedded below:

* `start_ledger` — the ledger-window arithmetic of `fetch_latest_transactions`
  (`start_ledger = max(latest_ledger - LEDGER_OFFSET, 0)`), together with the
  open-ended `end_ledger = -1` sentinel passed to `get_account_txns`.
* `fromhex` — Python's `bytes.fromhex` (pairs of hex digits, ASCII whitespace
  allowed between pairs but not inside a pair, `None` on any other input).
* `utf8Replace` — Python's `bytes.decode("utf-8", errors="replace")`: a
  standard UTF-8 decoder that maps each maximal subpart of an ill-formed
  byte sequence to one U+FFFD replacement character and never fails.
* `decode_memo` — the two-tier memo decoder (falsy input → `""`, valid hex →
  lossy UTF-8 decode of the bytes, otherwise identity).
* `evalTxn` — the acceptance check of the poll loop body,
  `txn.amount_pft >= min_amount and temp_id in txn.memo_data`, with Python's
  short-circuit `and` and with attribute access modelled as fallible
  (`Except PyErr`), since the loop wraps it in `try/except`.
* `scanBatch` — the `for txn in transactions` loop: first match wins, a
  per-transaction exception only skips that transaction.
* `pollAux` / `poll_for_valid_transaction` — the timed `while` loop.  Time is
  modelled discretely: fetching and evaluating are instantaneous and only
  `asyncio.sleep(poll_interval)` advances the clock, so the guard
  `(time.time() - start_time) < timeout` at the top of cycle `n` reads
  `n * poll_interval < timeout`.  The fetch of cycle `n` is an oracle
  `fetches : ℕ → Except FetchErr (List Txn)`; `RpcFetchError` and any other
  exception raised by the fetch are caught by the loop's `except` arms.
  The function also returns the number of cycles attempted.  A fuel argument
  makes the recursion total; `timeout.toNat + 1` cycles are more than the
  guard can ever admit when `poll_interval ≥ 1`.
* `run_transaction_poll` — the synchronous wrapper: its `try/except` is
  modelled by an `Except PyErr` argument holding either the poll's result or
  the exception raised by client construction / the polling process.

Python `Decimal` values are embedded as rationals (every finite decimal is a
rational and `Decimal` comparison agrees with rational comparison).
-/

/-- Python exceptions caught by the inner `except Exception` handlers
(attribute errors, malformed values, anything else). -/
inductive PyErr where
  | attributeError
  | valueError
  | other
deriving DecidableEq, Repr

/-- Exceptions raised by `fetch_latest_transactions`: `RpcFetchError` has its
own `except` arm, every other exception falls to the generic arm. -/
inductive FetchErr where
  | rpcFetchError
  | otherError
deriving DecidableEq, Repr

deriving instance DecidableEq for Except

/-- A fetched transaction as the poll loop reads it.  `amount_pft` and
`memo_data` accesses can raise in Python (missing attribute, malformed
amount), so they are embedded as `Except PyErr` values. -/
structure Txn where
  hash : String
  amount_pft : Except PyErr ℚ
  memo_data : Except PyErr String
deriving DecidableEq, Repr

/-- The dictionaries returned by `poll_for_valid_transaction`:
`{"status": VERIFIED, "transaction": txn}` or `{"status": NO_TRANSACTION}`. -/
inductive PollOutcome where
  | verified (t : Txn)
  | notFound
deriving DecidableEq, Repr

/-! ### Ledger window (`fetch_latest_transactions`, lines 74–78) -/

/-- `start_ledger = max(latest_ledger - LEDGER_OFFSET, 0)` (line 75). -/
def start_ledger (latest_ledger LEDGER_OFFSET : ℤ) : ℤ :=
  max (latest_ledger - LEDGER_OFFSET) 0

/-- The `end_ledger=-1` sentinel passed to `get_account_txns` (line 78):
the scan is open-ended, up to the current tip. -/
def end_ledger : ℤ := -1

/-! ### Python `bytes.fromhex` -/

/-- ASCII whitespace, which `bytes.fromhex` skips between byte pairs. -/
def isPyWS (c : Char) : Bool :=
  c = ' ' || c = '\t' || c = '\n' || c = '\r' ||
  c = Char.ofNat 0x0b || c = Char.ofNat 0x0c

/-- Value of one hexadecimal digit, `none` for a non-hex character. -/
def hexVal (c : Char) : Option ℕ :=
  if '0' ≤ c ∧ c ≤ '9' then some (c.toNat - 48)
  else if 'a' ≤ c ∧ c ≤ 'f' then some (c.toNat - 87)
  else if 'A' ≤ c ∧ c ≤ 'F' then some (c.toNat - 55)
  else none

/-- `bytes.fromhex` on a character list: hex digits come in adjacent pairs,
ASCII whitespace may separate pairs, anything else raises `ValueError`
(embedded as `none`). -/
def fromhexAux : List Char → Option (List ℕ)
  | [] => some []
  | c :: rest =>
    if isPyWS c then fromhexAux rest
    else
      match hexVal c with
      | none => none
      | some hi =>
        match rest with
        | [] => none
        | d :: rest2 =>
          match hexVal d with
          | none => none
          | some lo => (fromhexAux rest2).map (fun bs => (hi * 16 + lo) :: bs)

/-- `bytes.fromhex` on a string: `some bytes` on success, `none` when Python
raises `ValueError`. -/
def fromhex (s : String) : Option (List ℕ) :=
  fromhexAux s.toList

/-! ### Python `bytes.decode("utf-8", errors="replace")` -/

/-- The U+FFFD replacement character. -/
def replChar : Char := Char.ofNat 0xFFFD

/-- A UTF-8 continuation byte, `0x80–0xBF`. -/
def isCont (b : ℕ) : Bool := 0x80 ≤ b && b ≤ 0xBF

/-- Admissible second byte of a multi-byte sequence led by `b`: the UTF-8
ranges that exclude overlong encodings, surrogates and values above
U+10FFFF (`E0 A0–BF`, `ED 80–9F`, `F0 90–BF`, `F4 80–8F`, otherwise
`80–BF`). -/
def cont2ok (b c : ℕ) : Bool :=
  if b = 0xE0 then 0xA0 ≤ c && c ≤ 0xBF
  else if b = 0xED then 0x80 ≤ c && c ≤ 0x9F
  else if b = 0xF0 then 0x90 ≤ c && c ≤ 0xBF
  else if b = 0xF4 then 0x80 ≤ c && c ≤ 0x8F
  else isCont c

/-- UTF-8 decoding with `errors="replace"`: each maximal subpart of an
ill-formed sequence becomes one U+FFFD, decoding resumes at the offending
byte, and the function never fails. -/
def utf8Replace : List ℕ → List Char
  | [] => []
  | b :: rest =>
    if b ≤ 0x7F then Char.ofNat b :: utf8Replace rest
    else if 0xC2 ≤ b && b ≤ 0xDF then
      match rest with
      | [] => [replChar]
      | c :: r2 =>
        if isCont c then
          Char.ofNat ((b - 0xC0) * 0x40 + (c - 0x80)) :: utf8Replace r2
        else replChar :: utf8Replace (c :: r2)
    else if 0xE0 ≤ b && b ≤ 0xEF then
      match rest with
      | [] => [replChar]
      | c1 :: r2 =>
        if cont2ok b c1 then
          match r2 with
          | [] => [replChar]
          | c2 :: r3 =>
            if isCont c2 then
              Char.ofNat ((b - 0xE0) * 0x1000 + (c1 - 0x80) * 0x40 + (c2 - 0x80))
                :: utf8Replace r3
            else replChar :: utf8Replace (c2 :: r3)
        else replChar :: utf8Replace (c1 :: r2)
    else if 0xF0 ≤ b && b ≤ 0xF4 then
      match rest with
      | [] => [replChar]
      | c1 :: r2 =>
        if cont2ok b c1 then
          match r2 with
          | [] => [replChar]
          | c2 :: r3 =>
            if isCont c2 then
              match r3 with
              | [] => [replChar]
              | c3 :: r4 =>
                if isCont c3 then
                  Char.ofNat ((b - 0xF0) * 0x40000 + (c1 - 0x80) * 0x1000 +
                      (c2 - 0x80) * 0x40 + (c3 - 0x80)) :: utf8Replace r4
                else replChar :: utf8Replace (c3 :: r4)
            else replChar :: utf8Replace (c2 :: r3)
        else replChar :: utf8Replace (c1 :: r2)
    else replChar :: utf8Replace rest

/-! ### `decode_memo` (lines 84–100) -/

/-- `decode_memo(memo_str)`: falsy input (`None` or `""`) returns `""`;
a string `bytes.fromhex` accepts is decoded as lossy UTF-8 (the inner
`except UnicodeDecodeError` arm is unreachable, `errors="replace"` never
raises); on `ValueError` the input is returned unchanged. -/
def decode_memo (memo_str : Option String) : String :=
  match memo_str with
  | none => ""
  | some s =>
    if s = "" then ""
    else
      match fromhex s with
      | some b => String.mk (utf8Replace b)
      | none => s

/-! ### The acceptance check (line 126) -/

/-- `pat` occurs as a contiguous run at the start of some suffix of `l`. -/
def containsAux (pat : List Char) : List Char → Bool
  | [] => pat.isEmpty
  | c :: rest => pat.isPrefixOf (c :: rest) || containsAux pat rest

/-- Python's substring test `pat in s` on strings. -/
def strContains (s pat : String) : Bool :=
  containsAux pat.toList s.toList

/-- The condition of line 126,
`txn.amount_pft >= min_amount and temp_id in txn.memo_data`, with Python's
short-circuit `and`: if the amount test is false the memo is never read.
An exception from either attribute propagates (`.error`), to be caught by
the surrounding per-transaction `try/except`. -/
def evalTxn (min_amount : ℚ) (temp_id : String) (txn : Txn) :
    Except PyErr Bool :=
  match txn.amount_pft with
  | .error e => .error e
  | .ok a =>
    if min_amount ≤ a then
      match txn.memo_data with
      | .error e => .error e
      | .ok m => .ok (strContains m temp_id)
    else .ok false

/-! ### The per-cycle batch scan (lines 123–130) -/

/-- The `for txn in transactions` loop: return the first transaction whose
check is `True`; a `False` check or a per-transaction exception moves on to
the next transaction. -/
def scanBatch (min_amount : ℚ) (temp_id : String) : List Txn → Option Txn
  | [] => none
  | txn :: rest =>
    match evalTxn min_amount temp_id txn with
    | .ok true => some txn
    | .ok false => scanBatch min_amount temp_id rest
    | .error _ => scanBatch min_amount temp_id rest

/-- One cycle's `try` body (lines 120–134): the fetch of cycle `n` either
yields a batch, which is scanned, or raises (`RpcFetchError` or any other
exception), which the two `except` arms absorb — the cycle then produces no
match and falls through to the sleep. -/
def cycleScan (min_amount : ℚ) (temp_id : String)
    (fetches : ℕ → Except FetchErr (List Txn)) (n : ℕ) : Option Txn :=
  match fetches n with
  | .error _ => none
  | .ok txns => scanBatch min_amount temp_id txns

/-! ### The poll loop (lines 117–137) -/

/-- The `while (time.time() - start_time) < timeout` loop, one recursive
step per cycle.  At the top of cycle `n` the elapsed time is
`n * poll_interval` (fetching and evaluating are instantaneous, only the
sleep advances the clock).  On a match the loop returns the `VERIFIED`
dictionary at once; when the guard fails it returns `NO_TRANSACTION`.
The second component counts the cycles attempted.  `fuel` bounds the
recursion; it never runs out when `poll_interval ≥ 1` (see
`pollAux_fuel_enough`). -/
def pollAux (min_amount : ℚ) (temp_id : String)
    (fetches : ℕ → Except FetchErr (List Txn))
    (timeout poll_interval : ℤ) : ℕ → ℕ → PollOutcome × ℕ
  | 0, n => (.notFound, n)
  | fuel + 1, n =>
    if (n : ℤ) * poll_interval < timeout then
      match cycleScan min_amount temp_id fetches n with
      | some txn => (.verified txn, n + 1)
      | none => pollAux min_amount temp_id fetches timeout poll_interval fuel (n + 1)
    else
      (.notFound, n)

/-- `poll_for_valid_transaction` (lines 102–137): run the poll loop from
cycle `0` with enough fuel for every cycle the time guard can admit. -/
def poll_for_valid_transaction (min_amount : ℚ) (temp_id : String)
    (fetches : ℕ → Except FetchErr (List Txn))
    (timeout poll_interval : ℤ) : PollOutcome × ℕ :=
  pollAux min_amount temp_id fetches timeout poll_interval (timeout.toNat + 1) 0

/-! ### The synchronous wrapper (lines 139–156) -/

/-- `run_transaction_poll`: the `try` either completes the poll and returns
its dictionary, or raises somewhere (client construction, event-loop
failure), in which case the `except Exception` arm returns
`{"status": NO_TRANSACTION}`. -/
def run_transaction_poll (attempt : Except PyErr PollOutcome) : PollOutcome :=
  match attempt with
  | .ok r => r
  | .error _ => .notFound

/-! ### Helper lemmas about the poll loop -/

/-- Two fetch oracles whose cycles scan identically drive the loop to the
same result. -/
theorem pollAux_congr (minA : ℚ) (tid : String)
    (f g : ℕ → Except FetchErr (List Txn)) (timeout interval : ℤ)
    (hfg : ∀ m, cycleScan minA tid f m = cycleScan minA tid g m) :
    ∀ fuel n, pollAux minA tid f timeout interval fuel n =
      pollAux minA tid g timeout interval fuel n := by
  intro fuel
  induction fuel with
  | zero => intro n; rfl
  | succ fuel ih =>
    intro n
    simp only [pollAux, hfg n]
    exact match cycleScan minA tid g n with
      | some _ => rfl
      | none => by simp only [ih]

/-- A cycle inside the deadline that produces no match falls through to the
next cycle. -/
theorem pollAux_step_none (minA : ℚ) (tid : String)
    (f : ℕ → Except FetchErr (List Txn)) (timeout interval : ℤ) (fuel n : ℕ)
    (hc : cycleScan minA tid f n = none) (hg : (n : ℤ) * interval < timeout) :
    pollAux minA tid f timeout interval (fuel + 1) n =
      pollAux minA tid f timeout interval fuel (n + 1) := by
  simp [pollAux, hc, hg]

/-- When the deadline guard fails the loop returns `NO_TRANSACTION`. -/
theorem pollAux_stop (minA : ℚ) (tid : String)
    (f : ℕ → Except FetchErr (List Txn)) (timeout interval : ℤ) (fuel n : ℕ)
    (hg : ¬ (n : ℤ) * interval < timeout) :
    pollAux minA tid f timeout interval (fuel + 1) n = (.notFound, n) := by
  simp [pollAux, hg]

/-- The fuel is immaterial once it covers the remaining time: with
`poll_interval ≥ 1`, adding a unit of fuel beyond `timeout - n` never
changes the result, so `timeout.toNat + 1` units from cycle `0` behave as
the unbounded `while` loop. -/
theorem pollAux_fuel_enough (minA : ℚ) (tid : String)
    (f : ℕ → Except FetchErr (List Txn)) (timeout interval : ℤ)
    (hi : 1 ≤ interval) :
    ∀ (fuel n : ℕ), timeout ≤ (n : ℤ) + (fuel : ℤ) →
      pollAux minA tid f timeout interval (fuel + 1) n =
        pollAux minA tid f timeout interval fuel n := by
  intro fuel
  induction fuel with
  | zero =>
    intro n hn
    have hng : ¬ (n : ℤ) * interval < timeout := by
      have h1 : (n : ℤ) ≤ (n : ℤ) * interval :=
        le_mul_of_one_le_right (Int.ofNat_nonneg n) hi
      push_cast at hn
      omega
    simp [pollAux, hng]
  | succ fuel ih =>
    intro n hn
    by_cases hg : (n : ℤ) * interval < timeout
    · have hrec := ih (n + 1) (by push_cast at hn ⊢; omega)
      simp only [pollAux, if_pos hg]
      exact match cycleScan minA tid f n with
        | some _ => rfl
        | none => by simpa using hrec
    · simp [pollAux, hg]

/-! ### Claims -/

/-- C1: the spec says a transaction is accepted iff its amount is at least
`min_amount` AND the correlation token occurs in the memo *after*
`decode_memo`.  The code compares the token against the raw `memo_data`
(line 126) and never calls `decode_memo` anywhere: for a hex-encoded memo
whose decoding contains the token, the amount test passes and the decoded
memo contains the token, yet the code's check evaluates to `False`. -/
theorem C1_memo_never_decoded :
    evalTxn 1 "TEMP42" ⟨"h1", .ok 2, .ok "54454d503432"⟩ = .ok false ∧
    (1 : ℚ) ≤ 2 ∧
    strContains (decode_memo (some "54454d503432")) "TEMP42" = true := by
  refine ⟨by decide, by norm_num, by decide⟩

/-- C2: the claim says an invalid configuration (`poll_interval ≥ timeout`,
or a non-positive timeout) fails fast with a configuration error before
polling.  The code has no such guard: with `timeout = poll_interval = 30`
it enters the loop, attempts one cycle and returns `NO_TRANSACTION`, and
with `timeout = 0` it returns `NO_TRANSACTION` after zero cycles — in both
cases a normal poll outcome, never a configuration error. -/
theorem C2_no_configuration_guard :
    poll_for_valid_transaction 1 "TEMP42" (fun _ => .ok []) 30 30 =
      (.notFound, 1) ∧
    poll_for_valid_transaction 1 "TEMP42" (fun _ => .ok []) 0 10 =
      (.notFound, 0) := by
  refine ⟨by decide, by decide⟩

/-- C3: every per-cycle and per-transaction error is absorbed locally.
(1) A cycle whose fetch raises behaves exactly like a cycle that fetched an
empty batch, for the whole remaining run of the loop; (2) a transaction
whose amount access raises is skipped, the rest of the batch is scanned
unchanged; (3) likewise for a memo access that raises; (4) the caller
always receives `Verified` or `NotFound` — the poll's result type carries
no error. -/
theorem C3_errors_absorbed :
    (∀ (minA : ℚ) (tid : String) (f : ℕ → Except FetchErr (List Txn))
        (k : ℕ) (e : FetchErr) (timeout interval : ℤ) (fuel n : ℕ),
      pollAux minA tid (fun m => if m = k then .error e else f m)
          timeout interval fuel n =
        pollAux minA tid (fun m => if m = k then .ok [] else f m)
          timeout interval fuel n) ∧
    (∀ (minA : ℚ) (tid hash : String) (e : PyErr)
        (memo : Except PyErr String) (rest : List Txn),
      scanBatch minA tid (⟨hash, .error e, memo⟩ :: rest) =
        scanBatch minA tid rest) ∧
    (∀ (minA a : ℚ) (tid hash : String) (e : PyErr) (rest : List Txn),
      scanBatch minA tid (⟨hash, .ok a, .error e⟩ :: rest) =
        scanBatch minA tid rest) ∧
    (∀ (minA : ℚ) (tid : String) (f : ℕ → Except FetchErr (List Txn))
        (timeout interval : ℤ),
      (poll_for_valid_transaction minA tid f timeout interval).1 = .notFound ∨
      ∃ t, (poll_for_valid_transaction minA tid f timeout interval).1 =
        .verified t) := by
  refine ⟨?_, ?_, ?_, ?_⟩
  · intro minA tid f k e timeout interval fuel n
    refine pollAux_congr minA tid _ _ timeout interval ?_ fuel n
    intro m
    by_cases hm : m = k
    · simp [cycleScan, hm, scanBatch]
    · simp [cycleScan, hm]
  · intro minA tid hash e memo rest
    rfl
  · intro minA a tid hash e rest
    by_cases h : minA ≤ a <;> simp [scanBatch, evalTxn, h]
  · intro minA tid f timeout interval
    cases h : (poll_for_valid_transaction minA tid f timeout interval).1 with
    | verified t => exact Or.inr ⟨t, rfl⟩
    | notFound => exact Or.inl rfl

/-- C4: for every head ledger index ≥ 0 and lookback depth ≥ 0 the scan
window starts at `max(head - lookbackDepth, 0)`, which is never negative,
and the window's end is the open-ended sentinel `-1` (scan to the current
tip). -/
theorem C4_window_start (head lookbackDepth : ℤ)
    (_hh : 0 ≤ head) (_hd : 0 ≤ lookbackDepth) :
    start_ledger head lookbackDepth = max (head - lookbackDepth) 0 ∧
    0 ≤ start_ledger head lookbackDepth ∧
    end_ledger = -1 :=
  ⟨rfl, le_max_right _ _, rfl⟩

/-- Witness for C4 at `head = 100`, `lookbackDepth = 5000`. -/
theorem C4_window_start_witness :
    start_ledger 100 5000 = max ((100 : ℤ) - 5000) 0 ∧
    (0 : ℤ) ≤ start_ledger 100 5000 ∧
    end_ledger = -1 :=
  C4_window_start 100 5000 (by norm_num) (by norm_num)

/-- C5: `decode_memo` is total and two-tiered on strings: a string accepted
by `bytes.fromhex` is decoded as lossy UTF-8 (one replacement character per
maximal ill-formed subpart, never a failure), any other string is returned
unchanged.  The falsy short-circuit for `""` agrees with the hex tier,
since `""` is valid hex for the empty byte string, which decodes to `""`. -/
theorem C5_decode_memo_two_tier (s : String) :
    decode_memo (some s) =
      match fromhex s with
      | some b => String.mk (utf8Replace b)
      | none => s := by
  by_cases h : s = ""
  · subst h; decide
  · simp [decode_memo, h]

/-- C6: within a cycle the batch is scanned in fetch order and the first
transaction whose check is `True` is returned at once: the scan yields that
transaction for *every* choice of the transactions behind it (so none of
them is ever consulted or returned), and when the cycle's fetch delivers
such a batch inside the deadline the loop returns `Verified` with that
transaction immediately. -/
theorem C6_first_match_wins (minA : ℚ) (tid : String) (pre : List Txn)
    (t : Txn) (hpre : ∀ u ∈ pre, evalTxn minA tid u ≠ .ok true)
    (ht : evalTxn minA tid t = .ok true) :
    (∀ post : List Txn, scanBatch minA tid (pre ++ t :: post) = some t) ∧
    (∀ (f : ℕ → Except FetchErr (List Txn)) (timeout interval : ℤ)
        (fuel n : ℕ) (post : List Txn),
      f n = .ok (pre ++ t :: post) → (n : ℤ) * interval < timeout →
      pollAux minA tid f timeout interval (fuel + 1) n = (.verified t, n + 1)) := by
  have hscan : ∀ post : List Txn, scanBatch minA tid (pre ++ t :: post) = some t := by
    intro post
    induction pre with
    | nil => simp [scanBatch, ht]
    | cons u pre ih =>
      have hu := hpre u (List.mem_cons_self u pre)
      have hrest : ∀ v ∈ pre, evalTxn minA tid v ≠ .ok true := fun v hv =>
        hpre v (List.mem_cons_of_mem u hv)
      cases hval : evalTxn minA tid u with
      | error e => simpa [scanBatch, hval] using ih hrest
      | ok b =>
        cases b with
        | true => exact absurd hval hu
        | false => simpa [scanBatch, hval] using ih hrest
  refine ⟨hscan, ?_⟩
  intro f timeout interval fuel n post hf hg
  simp [pollAux, hg, cycleScan, hf, hscan post]

/-- Witness for C6: a failing transaction, then the match, then a further
matching transaction that is never reached. -/
theorem C6_first_match_wins_witness :
    scanBatch 1 "T"
      ([⟨"a", .ok 0, .ok "T"⟩] ++ ⟨"b", .ok 1, .ok "xTx"⟩ ::
        [⟨"c", .ok 5, .ok "T"⟩]) = some ⟨"b", .ok 1, .ok "xTx"⟩ :=
  (C6_first_match_wins 1 "T" [⟨"a", .ok 0, .ok "T"⟩] ⟨"b", .ok 1, .ok "xTx"⟩
    (by decide) (by decide)).1 [⟨"c", .ok 5, .ok "T"⟩]

/-- C7: the amount comparison of line 126 is `>=`, so at the boundary a
transaction with `amount_pft == min_amount` passes the amount test and the
check reduces to the memo test — but, as in C1, the memo test is run on the
raw `memo_data`, not on the decoded memo: at the boundary input with a
hex-encoded memo whose decoding contains the token, the code still
evaluates to `False` while the decoded memo does contain the token. -/
theorem C7_threshold_boundary :
    (∀ (minA : ℚ) (tid hash memo : String),
      evalTxn minA tid ⟨hash, .ok minA, .ok memo⟩ = .ok (strContains memo tid)) ∧
    evalTxn 1 "TEMP42" ⟨"h2", .ok 1, .ok "54454d503432"⟩ = .ok false ∧
    strContains (decode_memo (some "54454d503432")) "TEMP42" = true := by
  refine ⟨?_, by decide, by decide⟩
  intro minA tid hash memo
  simp [evalTxn]

/-- C8: with `timeout = 30` and `poll_interval = 10`, when no fetched batch
ever contains a match and cycles cost no time beyond the sleep, the loop
attempts cycles at elapsed times 0, 10 and 20, the guard `30 < 30` then
fails, and the poll returns `NO_TRANSACTION` after exactly 3 cycles. -/
theorem C8_exactly_three_cycles (minA : ℚ) (tid : String)
    (fetches : ℕ → Except FetchErr (List Txn))
    (hnomatch : ∀ n b, fetches n = .ok b → scanBatch minA tid b = none) :
    poll_for_valid_transaction minA tid fetches 30 10 = (.notFound, 3) := by
  have hc : ∀ n, cycleScan minA tid fetches n = none := by
    intro n
    unfold cycleScan
    cases h : fetches n with
    | error e => rfl
    | ok b => exact hnomatch n b h
  show pollAux minA tid fetches 30 10 31 0 = (.notFound, 3)
  calc pollAux minA tid fetches 30 10 31 0
      = pollAux minA tid fetches 30 10 30 1 :=
        pollAux_step_none minA tid fetches 30 10 30 0 (hc 0) (by norm_num)
    _ = pollAux minA tid fetches 30 10 29 2 :=
        pollAux_step_none minA tid fetches 30 10 29 1 (hc 1) (by norm_num)
    _ = pollAux minA tid fetches 30 10 28 3 :=
        pollAux_step_none minA tid fetches 30 10 28 2 (hc 2) (by norm_num)
    _ = (.notFound, 3) :=
        pollAux_stop minA tid fetches 30 10 27 3 (by norm_num)

/-- Witness for C8: every cycle fetches an empty batch. -/
theorem C8_exactly_three_cycles_witness :
    poll_for_valid_transaction 1 "TEMP42" (fun _ => .ok []) 30 10 =
      (.notFound, 3) :=
  C8_exactly_three_cycles 1 "TEMP42" (fun _ => .ok [])
    (fun n b h => by cases h; rfl)

/-- C9: the synchronous wrapper returns a poll outcome for every attempt;
when the attempt raises (client construction failure, invalid
configuration, event-loop failure) it returns `{"status": NO_TRANSACTION}`
— the same value a timed-out poll produces, so a configuration-level
failure is indistinguishable from a timeout for the caller. -/
theorem C9_wrapper_absorbs_exceptions :
    (∀ attempt : Except PyErr PollOutcome,
      run_transaction_poll attempt = .notFound ∨
      ∃ t, run_transaction_poll attempt = .verified t) ∧
    (∀ e : PyErr, run_transaction_poll (.error e) = .notFound) ∧
    (∀ e : PyErr, run_transaction_poll (.error e) =
      run_transaction_poll
        (.ok (poll_for_valid_transaction 1 "TEMP42" (fun _ => .ok []) 30 10).1)) := by
  refine ⟨?_, fun e => rfl, ?_⟩
  · intro attempt
    cases attempt with
    | error e => exact Or.inl rfl
    | ok r =>
      cases r with
      | verified t => exact Or.inr ⟨t, rfl⟩
      | notFound => exact Or.inl rfl
  · intro e
    have hto :
        (poll_for_valid_transaction 1 "TEMP42" (fun _ => .ok []) 30 10).1 =
          PollOutcome.notFound := by decide
    rw [hto]
    rfl

/-- C10: a falsy memo — `None` or the empty string — makes `decode_memo`
return `""` through the short-circuit at line 90, before any hex decoding,
and the empty decoded memo can never contain a non-empty correlation
token. -/
theorem C10_falsy_memo :
    decode_memo none = "" ∧
    decode_memo (some "") = "" ∧
    (∀ (c : Char) (cs : List Char),
      strContains "" (String.mk (c :: cs)) = false) :=
  ⟨rfl, rfl, fun _ _ => rfl⟩
